import Mathlib

/-!
Shallow embedding of the stack-capturing error package (a fork of
go-errors/errors, file `error.go`) and proofs about its wrapping,
prefix-composition, stack-capture and frame-memoization behaviour.

Modelling conventions:
* A Go `error` interface value is `GoError` (`plain` for any ordinary error,
  identified by the string its `Error()` method returns; `star` for the
  package's `*Error`).  A Go `interface{}` argument is `GoValue`
  (`nil`, an error, or a non-error value identified by its `fmt "%v"`
  rendering).  A Go function returning a possibly-nil `error` returns
  `Option GoError` (`none` is the nil error).
* The runtime call stack visible to `runtime.Callers` is passed explicitly as
  `ls : List Nat`, a list of program counters, innermost frame first;
  `runtime.Callers(skip, buf)` with `buf` of size `maxD` yields
  `(ls.drop skip).take maxD`.  The mutable package variable `MaxStackDepth`
  is threaded as the explicit parameter `maxD` (its current value);
  `MaxStackDepth` below is its initial value from the source.
* Pointer identity of `*Error` is modelled as value identity: `wrap`
  returning its argument unchanged is the embedding of returning the same
  pointer.
-/

namespace GoErrors

/-- A resolved stack frame descriptor.
Modelled from the spec: the `StackFrame` type lives in a source file absent
from `src/`; the spec's FrameDescriptor carries the raw `location` (pc) it was
resolved from and the resolved display fields `functionName`, `fileName`,
`lineNumber`. -/
structure StackFrame where
  location : Nat
  functionName : String
  fileName : String
  lineNumber : Nat
deriving DecidableEq, Repr

/-- Modelled from the spec: `NewStackFrame` (in the file absent from `src/`)
resolves one captured program counter into a `StackFrame` via the external
runtime symbol facility.  The facility is the explicit parameter `symtab`
mapping a pc to (functionName, fileName, lineNumber); a lookup failure is
folded into `symtab` by having it yield placeholder fields. -/
def NewStackFrame (symtab : Nat → String × String × Nat) (pc : Nat) : StackFrame :=
  ⟨pc, (symtab pc).1, (symtab pc).2.1, (symtab pc).2.2⟩

/-- A Go `error` value: either an ordinary error (identified by its message)
or the package's `*Error`, whose fields follow `type Error struct` in
`error.go`: `Err` (the wrapped error), `stack` (captured pcs), `frames`
(lazily memoized resolved frames, `none` until resolved), and the message
prefix (field `prefix` in the source). -/
inductive GoError where
  | plain (msg : String)
  | star (Err : GoError) (stack : List Nat) (frames : Option (List StackFrame)) (pfx : String)
deriving DecidableEq, Repr

/-- A Go `interface{}` argument: nil, an error, or any other value identified
by its `fmt.Sprintf "%v"` rendering. -/
inductive GoValue where
  | nil
  | err (e : GoError)
  | other (repr : String)
deriving DecidableEq, Repr

/-- Whether a `GoError` is a `*Error` (the `case *Error` of the type
switches). -/
def GoError.isStar : GoError → Bool
  | .plain _ => false
  | .star _ _ _ _ => true

/-- Whether a `GoValue` holds a `*Error`. -/
def GoValue.isStarVal : GoValue → Bool
  | .err (.star _ _ _ _) => true
  | _ => false

/-- The `stack` field of a `*Error` (method `Callers` returns it); `[]` on a
plain error, which has no such field. -/
def GoError.rawStack : GoError → List Nat
  | .plain _ => []
  | .star _ s _ _ => s

/-- The `frames` field of a `*Error`; `none` on a plain error, which has no
such field. -/
def GoError.framesF : GoError → Option (List StackFrame)
  | .plain _ => none
  | .star _ _ f _ => f

/-- The `Unwrap` method (`error.go` line 219): defined on `*Error`, returning
the `Err` field; a plain error has no such method, rendered as `none`. -/
def unwrapE : GoError → Option GoError
  | .plain _ => none
  | .star e _ _ _ => some e

/-- Initial value of the package variable `var MaxStackDepth = 50`. -/
def MaxStackDepth : Nat := 50

/-- The classification step shared by `New` and `wrap`: a nil `interface{}`
falls to the `default` branch of the type switch (Go's `case error` does not
match a nil interface) where `fmt.Errorf("%v", e)` renders nil as the message
`"<nil>"`; a non-error value is rendered by its `%v` string; an error is used
directly. -/
def classify : GoValue → GoError
  | .nil => .plain "<nil>"
  | .err e => e
  | .other s => .plain s

/-- `New` (`error.go` lines 72-88): classify the value, then capture a fresh
stack with `runtime.Callers(2, stack)` into a buffer of size `maxD`
(`MaxStackDepth`).  There is no `*Error` special case: an error, including a
`*Error`, is used directly as `Err`. -/
def New (maxD : Nat) (ls : List Nat) (e : GoValue) : GoError :=
  .star (classify e) ((ls.drop 2).take maxD) none ""

/-- Internal `wrap` (`error.go` lines 106-124): a `*Error` is returned
unchanged (same pointer); otherwise classify and capture a fresh stack with
`runtime.Callers(3+skip, stack)`. -/
def wrap (maxD skip : Nat) (ls : List Nat) (e : GoValue) : GoError :=
  match e with
  | .err (.star f s fr p) => .star f s fr p
  | e => .star (classify e) ((ls.drop (3 + skip)).take maxD) none ""

/-- `Wrap` (`error.go` lines 97-103): nil in, nil out; otherwise the internal
`wrap`. -/
def Wrap (maxD skip : Nat) (ls : List Nat) (e : GoValue) : Option GoError :=
  match e with
  | .nil => none
  | e => some (wrap maxD skip ls e)

/-- `WrapPrefix` (`error.go` lines 135-152), named `WrapPfx` here: nil in,
nil out; otherwise `wrap`, then prepend the new prefix ahead of a non-empty
existing one joined by `": "`, and allocate a new `*Error` reusing the inner
`Err` and `stack` (the `frames` field is not copied, so it starts `none`).
The `internal wrap` comment in the source says it never returns nil (it always
returns a `*Error`); the `.plain` branch below is that unreachable case. -/
def WrapPfx (maxD : Nat) (pfx : String) (skip : Nat) (ls : List Nat) (e : GoValue) :
    Option GoError :=
  match e with
  | .nil => none
  | e =>
    match wrap maxD skip ls e with
    | .star ierr istack _ ipfx =>
        some (.star ierr istack none (if ipfx = "" then pfx else pfx ++ ": " ++ ipfx))
    | .plain m => some (.plain m)

/-- Converts a Go `error` return value back into an `interface{}` argument,
for feeding one call's result to another (a nil error is a nil interface). -/
def errToValue : Option GoError → GoValue
  | none => .nil
  | some e => .err e

/-- The `Error` method (`error.go` lines 162-170): the underlying error's
message, with a non-empty prefix prepended joined by `": "`.  On a plain
error it is that error's own `Error()` string. -/
def GoError.errorMsg : GoError → String
  | .plain m => m
  | .star e _ _ p => if p = "" then e.errorMsg else p ++ ": " ++ e.errorMsg

/-- The `StackFrames` method (`error.go` lines 198-208): if `frames` is nil,
allocate one `StackFrame` per captured pc via `NewStackFrame` and store them
(the `make` + index-assignment loop over `err.stack` is `List.map`); then
return the stored frames.  The method mutates its `*Error` receiver, so it is
embedded state-passing style, returning (result, updated receiver); the
`.plain` case is unreachable (the receiver is always a `*Error`). -/
def StackFrames (symtab : Nat → String × String × Nat) :
    GoError → List StackFrame × GoError
  | .plain m => ([], .plain m)
  | .star e stk none p =>
      (stk.map (NewStackFrame symtab), .star e stk (some (stk.map (NewStackFrame symtab))) p)
  | .star e stk (some fs) p => (fs, .star e stk (some fs) p)

/-- Modelled from the spec: the `StackFrame.String` method (in the file
absent from `src/`) renders one line of the form
`<functionName> (<fileName>:<lineNumber>)`; the optional indented
source-context lines are omitted here (the spec lets a failed source read
omit them). -/
def StackFrame.render (f : StackFrame) : String :=
  f.functionName ++ " (" ++ f.fileName ++ ":" ++ toString f.lineNumber ++ ")\n"

/-- The `Stack` method (`error.go` lines 174-182): a `bytes.Buffer` that
appends each resolved frame's rendering in order (a `foldl` of string
append starting from the empty buffer); state-passing because it calls
`StackFrames`. -/
def Stack (symtab : Nat → String × String × Nat) (err : GoError) : String × GoError :=
  let r := StackFrames symtab err
  (r.1.foldl (fun buf f => buf ++ StackFrame.render f) "", r.2)

/-- The dynamic type name `reflect.TypeOf(err.Err).String()`.  Modelled in
part from the spec: the set of concrete error types is abstracted to the two
shapes of `GoError`; the `uncaughtPanic` branch of `TypeName` lives in a file
absent from `src/` and no value of this embedding is an `uncaughtPanic`. -/
def dynTypeName : GoError → String
  | .plain _ => "*errors.errorString"
  | .star _ _ _ _ => "*errors.Error"

/-- The `TypeName` method (`error.go` lines 211-216): the reflected type name
of the `Err` field (the `uncaughtPanic` case does not arise in this
embedding); unreachable on a plain error, which has no such method. -/
def TypeName : GoError → String
  | .plain _ => ""
  | .star e _ _ _ => dynTypeName e

/-- The `ErrorStack` method (`error.go` lines 192-194):
`TypeName() + " " + Error() + "\n" + string(Stack())`; state-passing because
`Stack` resolves and memoizes frames. -/
def ErrorStack (symtab : Nat → String × String × Nat) (err : GoError) : String × GoError :=
  let s := Stack symtab err
  (TypeName err ++ " " ++ err.errorMsg ++ "\n" ++ s.1, s.2)

/-- One level of the spec's invariant: a `*Error` whose `Err` field is not
itself a `*Error` (a plain error trivially satisfies it). -/
def oneLevelOk : GoError → Bool
  | .plain _ => true
  | .star e _ _ _ => !e.isStar

/-- The invariant precondition on an `interface{}` argument: if it holds a
`*Error`, that value does not directly wrap a `*Error`. -/
def valOk : GoValue → Bool
  | .err e => oneLevelOk e
  | _ => true

/-- A concrete symbol facility used to instantiate theorems at concrete
inputs. -/
def symtabC : Nat → String × String × Nat :=
  fun pc => ("f", "g.go", pc)

theorem strAppend_assoc (a b c : String) : a ++ b ++ c = a ++ (b ++ c) := by
  apply String.ext
  simp [String.data_append, List.append_assoc]

theorem foldlRender_shift (l : List StackFrame) (a : String) :
    l.foldl (fun buf f => buf ++ StackFrame.render f) a =
      a ++ l.foldl (fun buf f => buf ++ StackFrame.render f) "" := by
  induction l generalizing a with
  | nil => simp [String.append_empty]
  | cons x xs ih =>
    simp only [List.foldl_cons]
    rw [ih (a ++ x.render), ih ("" ++ x.render), String.empty_append, strAppend_assoc]

/-- C1: `Wrap` is idempotent on already-wrapped errors: the internal `wrap`
returns a `*Error` argument as the very same value, with no new stack
capture, and re-wrapping the result of `Wrap` (under any live call stack at
the second call) returns exactly the first result. -/
theorem C1_wrap_idempotent (maxD : Nat) (ls1 ls2 : List Nat) (v : GoValue) :
    (∀ f s fr p skip, wrap maxD skip ls2 (.err (.star f s fr p)) = .star f s fr p) ∧
    Wrap maxD 0 ls2 (errToValue (Wrap maxD 0 ls1 v)) = Wrap maxD 0 ls1 v := by
  refine ⟨fun f s fr p skip => rfl, ?_⟩
  cases v with
  | nil => rfl
  | err e => cases e <;> rfl
  | other s => rfl

/-- C2 counterexample: `New` has no `*Error` case in its type switch, so
`New` applied to a `*Error` produces a `*Error` whose `Err` field is itself
a `*Error`, violating the claimed invariant for values produced by
Capture/New. -/
theorem C2_counterexample :
    oneLevelOk (New 50 [] (.err (.star (.plain "x") [] none ""))) = false ∧
    unwrapE (New 50 [] (.err (.star (.plain "x") [] none ""))) =
      some (.star (.plain "x") [] none "") :=
  ⟨rfl, rfl⟩

/-- C2 (amended): `Wrap` and `WrapPrefix` preserve the no-direct-double-wrap
invariant: if the argument, when it holds a `*Error`, does not directly wrap
a `*Error`, then neither does any `*Error` they return.  (`New` does not: see
the counterexample.) -/
theorem C2_no_double_wrap (maxD skip : Nat) (ls : List Nat) (np : String)
    (v : GoValue) (h : valOk v = true) :
    (∀ w, Wrap maxD skip ls v = some w → oneLevelOk w = true) ∧
    (∀ w, WrapPfx maxD np skip ls v = some w → oneLevelOk w = true) := by
  cases v with
  | nil =>
    refine ⟨fun w hw => ?_, fun w hw => ?_⟩ <;> simp [Wrap, WrapPfx] at hw
  | err e =>
    cases e with
    | plain m =>
      refine ⟨fun w hw => ?_, fun w hw => ?_⟩ <;>
        (simp only [Wrap, WrapPfx, wrap] at hw; injection hw with h1; subst h1; rfl)
    | star f s fr p =>
      simp only [valOk] at h
      refine ⟨fun w hw => ?_, fun w hw => ?_⟩
      · simp only [Wrap, wrap] at hw
        injection hw with h1
        subst h1
        exact h
      · simp only [WrapPfx, wrap] at hw
        injection hw with h1
        subst h1
        simpa [oneLevelOk] using h
  | other s =>
    refine ⟨fun w hw => ?_, fun w hw => ?_⟩ <;>
      (simp only [Wrap, WrapPfx, wrap] at hw; injection hw with h1; subst h1; rfl)

theorem C2_no_double_wrap_witness :
    oneLevelOk (.star (.plain "x") [1] none "B") = true :=
  (C2_no_double_wrap 50 0 [] "A" (.err (.star (.plain "x") [1] none "B"))
    (by decide)).1 (.star (.plain "x") [1] none "B") rfl

/-- C3: wrapping a non-nil error that is not already a `*Error` yields a
value whose single-level `Unwrap` is exactly that error, for any skip. -/
theorem C3_wrap_unwrap (maxD skip : Nat) (ls : List Nat) (e : GoError)
    (h : e.isStar = false) :
    ∃ w, Wrap maxD skip ls (.err e) = some w ∧ unwrapE w = some e := by
  cases e with
  | plain m => exact ⟨_, rfl, rfl⟩
  | star f s fr p => simp [GoError.isStar] at h

theorem C3_wrap_unwrap_witness :
    ∃ w, Wrap 50 0 [] (.err (.plain "boom")) = some w ∧
      unwrapE w = some (.plain "boom") :=
  C3_wrap_unwrap 50 0 [] (.plain "boom") rfl

/-- C4: `WrapPrefix` on a `*Error` with a non-empty existing prefix prepends
the new prefix joined by the separator and reuses the inner `Err` and
`stack`; in particular the B-then-A double wrap of a plain error has message
A-colon-B-colon-original. -/
theorem C4_wrapPfx_compose (maxD skip : Nat) (ls : List Nat) (ie : GoError)
    (istk : List Nat) (ifr : Option (List StackFrame)) (ip np : String)
    (hip : ip ≠ "") :
    WrapPfx maxD np skip ls (.err (.star ie istk ifr ip)) =
      some (.star ie istk none (np ++ ": " ++ ip)) ∧
    ∀ (m : String) (ls1 ls2 : List Nat),
      ∃ r, WrapPfx maxD "A" 0 ls2
          (errToValue (WrapPfx maxD "B" 0 ls1 (.err (.plain m)))) = some r ∧
        r.errorMsg = "A: B: " ++ m := by
  constructor
  · simp [WrapPfx, wrap, hip]
  · intro m ls1 ls2
    exact ⟨_, rfl, rfl⟩

theorem C4_wrapPfx_compose_witness :
    WrapPfx 50 "A" 0 [] (.err (.star (.plain "x") [1, 2] none "B")) =
      some (.star (.plain "x") [1, 2] none ("A" ++ ": " ++ "B")) :=
  (C4_wrapPfx_compose 50 0 [] (.plain "x") [1, 2] none "B" "A" (by decide)).1

/-- C5: wrapping nil is a no-op producing nil, for any skip, any prefix and
any live stack; no substitute error value is produced. -/
theorem C5_wrap_nil (maxD skip : Nat) (ls : List Nat) (pfx : String) :
    Wrap maxD skip ls .nil = none ∧ WrapPfx maxD pfx skip ls .nil = none :=
  ⟨rfl, rfl⟩

/-- C6: the raw stack captured by `New` or `wrap` never exceeds the
configured maximum depth, and when the live call stack (after the skipped
frames) is at least that deep, the capture silently truncates to exactly the
maximum number of frames; no overflow error value exists, the functions
always return an ordinary `*Error`. -/
theorem C6_stack_truncation (maxD skip : Nat) (ls : List Nat) (v : GoValue)
    (hv : v.isStarVal = false)
    (h2 : maxD ≤ (ls.drop 2).length)
    (h3 : maxD ≤ (ls.drop (3 + skip)).length) :
    (New maxD ls v).rawStack.length = maxD ∧
    (wrap maxD skip ls v).rawStack.length = maxD ∧
    ∀ (ls2 : List Nat) (v2 : GoValue),
      (New maxD ls2 v2).rawStack.length ≤ maxD ∧
      (v2.isStarVal = false → (wrap maxD skip ls2 v2).rawStack.length ≤ maxD) := by
  simp only [List.length_drop] at h2 h3
  refine ⟨?_, ?_, ?_⟩
  · simp only [New, GoError.rawStack, List.length_take, List.length_drop]
    omega
  · cases v with
    | nil =>
      simp only [wrap, GoError.rawStack, List.length_take, List.length_drop]
      omega
    | err e =>
      cases e with
      | plain m =>
        simp only [wrap, GoError.rawStack, List.length_take, List.length_drop]
        omega
      | star f s fr p => simp [GoValue.isStarVal] at hv
    | other s =>
      simp only [wrap, GoError.rawStack, List.length_take, List.length_drop]
      omega
  · intro ls2 v2
    constructor
    · simp [New, GoError.rawStack, List.length_take]
    · intro hv2
      cases v2 with
      | nil => simp [wrap, GoError.rawStack, List.length_take]
      | err e =>
        cases e with
        | plain m => simp [wrap, GoError.rawStack, List.length_take]
        | star f s fr p => simp [GoValue.isStarVal] at hv2
      | other s => simp [wrap, GoError.rawStack, List.length_take]

theorem C6_stack_truncation_witness :
    (New 2 [1, 2, 3, 4, 5] (.err (.plain "x"))).rawStack.length = 2 ∧
    (wrap 2 0 [1, 2, 3, 4, 5] (.err (.plain "x"))).rawStack.length = 2 :=
  ⟨(C6_stack_truncation 2 0 [1, 2, 3, 4, 5] (.err (.plain "x")) rfl (by decide)
      (by decide)).1,
   (C6_stack_truncation 2 0 [1, 2, 3, 4, 5] (.err (.plain "x")) rfl (by decide)
      (by decide)).2.1⟩

/-- C7: the `frames` field of every `*Error` allocated by `New`, `wrap` or
`WrapPrefix` is nil until the first call of `StackFrames`; that call resolves
exactly one frame per captured pc (a map of `NewStackFrame` over the stack)
and stores the result; a repeated call returns the stored frames and leaves
the receiver unchanged (idempotent memoization). -/
theorem C7_frames_memoized (symtab : Nat → String × String × Nat) (maxD skip : Nat)
    (ls : List Nat) (np : String) (v : GoValue) (e : GoError) (stk : List Nat)
    (p : String) (hv : v.isStarVal = false) :
    (New maxD ls v).framesF = none ∧
    (wrap maxD skip ls v).framesF = none ∧
    (∀ v2 w, WrapPfx maxD np skip ls v2 = some w → w.framesF = none) ∧
    StackFrames symtab (.star e stk none p) =
      (stk.map (NewStackFrame symtab),
       .star e stk (some (stk.map (NewStackFrame symtab))) p) ∧
    ∀ err : GoError, StackFrames symtab ((StackFrames symtab err).2) =
      StackFrames symtab err := by
  refine ⟨rfl, ?_, ?_, rfl, ?_⟩
  · cases v with
    | nil => rfl
    | err e2 =>
      cases e2 with
      | plain m => rfl
      | star f s fr q => simp [GoValue.isStarVal] at hv
    | other s => rfl
  · intro v2 w hw
    cases v2 with
    | nil => simp [WrapPfx] at hw
    | err e2 =>
      cases e2 with
      | plain m =>
        simp only [WrapPfx, wrap] at hw
        injection hw with h1
        subst h1
        rfl
      | star f s fr q =>
        simp only [WrapPfx, wrap] at hw
        injection hw with h1
        subst h1
        rfl
    | other s =>
      simp only [WrapPfx, wrap] at hw
      injection hw with h1
      subst h1
      rfl
  · intro err
    cases err with
    | plain m => rfl
    | star f s fr q =>
      cases fr with
      | none => rfl
      | some fs => rfl

theorem C7_frames_memoized_witness :
    (New 50 [7] (.err (.plain "x"))).framesF = none ∧
    (StackFrames symtabC (.star (.plain "x") [7] none "")).1 =
      [⟨7, "f", "g.go", 7⟩] := by
  have p := C7_frames_memoized symtabC 50 0 [7] "A" (.err (.plain "x"))
    (.plain "x") [7] "" rfl
  refine ⟨p.1, ?_⟩
  rw [p.2.2.2.1]
  rfl

/-- C8: the `Error` method's message never contains stack text (it is a
function of `Err` and the prefix only, independent of the `stack` and
`frames` fields, and equals the possibly-prefixed underlying message), while
`ErrorStack` is the type label, the message, and the rendered frames, whose
text starts with the first resolved frame's line whenever any frames exist. -/
theorem C8_message_vs_stack (symtab : Nat → String × String × Nat) (e : GoError)
    (stk stk' : List Nat) (fr fr' : Option (List StackFrame)) (p : String) :
    GoError.errorMsg (.star e stk fr p) = GoError.errorMsg (.star e stk' fr' p) ∧
    GoError.errorMsg (.star e stk fr p) =
      (if p = "" then e.errorMsg else p ++ ": " ++ e.errorMsg) ∧
    (ErrorStack symtab (.star e stk fr p)).1 =
      TypeName (.star e stk fr p) ++ " " ++ GoError.errorMsg (.star e stk fr p) ++
        "\n" ++ (Stack symtab (.star e stk fr p)).1 ∧
    ∀ f rest, (StackFrames symtab (.star e stk fr p)).1 = f :: rest →
      (Stack symtab (.star e stk fr p)).1 =
        StackFrame.render f ++
          rest.foldl (fun buf g => buf ++ StackFrame.render g) "" := by
  refine ⟨rfl, rfl, rfl, ?_⟩
  intro f rest hfr
  simp only [Stack]
  rw [hfr, List.foldl_cons, foldlRender_shift, String.empty_append]

theorem C8_message_vs_stack_witness :
    (Stack symtabC (.star (.plain "x") [7] none "B")).1 =
      StackFrame.render ⟨7, "f", "g.go", 7⟩ ++
        List.foldl (fun buf g => buf ++ StackFrame.render g) "" [] :=
  (C8_message_vs_stack symtabC (.plain "x") [7] [7] none none "B").2.2.2
    ⟨7, "f", "g.go", 7⟩ [] rfl

/-- C10: unlike `Wrap`, `New` applied to nil does not propagate nil: the nil
interface misses the `case error` of the type switch and is formatted by the
`%v` branch into a message-only error with message `"<nil>"`, wrapped with a
freshly captured stack. -/
theorem C10_new_nil (maxD : Nat) (ls : List Nat) :
    New maxD ls .nil = .star (.plain "<nil>") ((ls.drop 2).take maxD) none "" ∧
    (New maxD ls .nil).isStar = true ∧
    unwrapE (New maxD ls .nil) = some (.plain "<nil>") ∧
    ∀ skip, Wrap maxD skip ls .nil = none :=
  ⟨rfl, rfl, rfl, fun _ => rfl⟩

end GoErrors
